import Mathlib

/-
Verification development for the seeniq-mentra tour application.

The definitions below are a shallow embedding of the session-orchestration
and idle-driven-narration logic of the repository:

  * `src/mentra-app/index.ts` — idle-check loop (`checkIdleAndQueryNearbyPlaces`,
    `startIdleCheck`, `stopIdleCheck`), the session lifecycle (`onSession`,
    `onStop`), and the speak-completion handlers;
  * `src/mentra-app/modules/audio.ts` — the per-user audio-start tracker;
  * `src/mentra-app/modules/location.ts` — the location cache (`getCachedLocation`,
    `cacheLocation`, `getLocation`);
  * `src/mentra-app/modules/photo.ts` — `addLocationToExif` and
    `extractExplanationText`;
  * `src/mentra-app/event/button.ts` — `addGpsExifIfAvailable`;
  * `src/mentra-app/routes/routes.ts` — the photo-fetch endpoints.

Timestamps are JavaScript epoch milliseconds, embedded as `Int`.
Coordinates are JavaScript numbers, embedded as `ℚ`.
JavaScript `Map`s are embedded as association lists with first-match lookup;
`Map.set` replaces any existing binding, `Map.delete` removes it.
-/

namespace Seeniq

/-! ### Idle-loop state machine (index.ts lines 128-337, audio.ts) -/

/-- Per-user state read and written by the idle loop:
`lastAudioStart` is the `lastAudioStartTime` map entry maintained by
`updateLastAudioFinishTime` / `getLastAudioFinishTime` (audio.ts), and
`hasQueried` is `this.hasQueriedNearbyPlaces.get(userId) || false`
(index.ts line 147). -/
structure IdleState where
  lastAudioStart : Option Int
  hasQueried : Bool
deriving Repr, DecidableEq

/-- The 30-second idle threshold, `IDLE_THRESHOLD_MS = 30 * 1000`
(index.ts line 144). -/
def IDLE_THRESHOLD_MS : Int := 30 * 1000

/-- One evaluation of `checkIdleAndQueryNearbyPlaces` (index.ts lines 128-258),
restricted to its synchronous guard logic: the returned `Bool` is `true`
exactly when the tick launches the nearby-places query (the code path that
passes both guards at lines 149 and 151 and reaches line 159, where the flag
is set to `true`).  The guard `if (!lastFinishTime)` at line 138 returns
early both when no timestamp is recorded and when the recorded number is
`0`, which is falsy in JavaScript.  A tick whose elapsed time is below the
threshold clears the flag if it was set (lines 250-257). -/
def tickStep (s : IdleState) (now : Int) : IdleState × Bool :=
  match s.lastAudioStart with
  | none => (s, false)
  | some lastFinishTime =>
    if lastFinishTime = 0 then (s, false)
    else
      let timeSinceLastAudio := now - lastFinishTime
      if IDLE_THRESHOLD_MS ≤ timeSinceLastAudio then
        if s.hasQueried then
          (s, false)
        else
          ({ s with hasQueried := true }, true)
      else
        if s.hasQueried then
          ({ s with hasQueried := false }, false)
        else
          (s, false)

/-- Events that touch the per-user idle state:
`audioStart t` is a call to `updateLastAudioFinishTime` at time `t`
(audio.ts line 21, issued before every speak);
`tick t` is one interval callback running `checkIdleAndQueryNearbyPlaces`;
`queryDone` is a call to `resetNearbyPlacesFlag` (index.ts line 263),
issued when a launched query's narration completes or fails. -/
inductive IdleEvent where
  | audioStart (t : Int)
  | tick (t : Int)
  | queryDone
deriving Repr, DecidableEq

/-- Effect of one event on the per-user idle state. -/
def stepEvent (s : IdleState) (e : IdleEvent) : IdleState :=
  match e with
  | IdleEvent.audioStart t => { s with lastAudioStart := some t }
  | IdleEvent.tick t => (tickStep s t).1
  | IdleEvent.queryDone => { s with hasQueried := false }

/-- Initial per-user state: no audio has ever started
(`lastAudioStartTime` has no entry) and the guard flag is unset. -/
def initIdleState : IdleState := ⟨none, false⟩

/-- State after a sequence of events, starting from the initial state. -/
def runIdle (evs : List IdleEvent) : IdleState :=
  evs.foldl stepEvent initIdleState

/-- The timestamp of the most recent audio-start event in a trace
(the value `getLastAudioFinishTime` returns after the trace). -/
def lastAudioStartOf (evs : List IdleEvent) : Option Int :=
  evs.foldl
    (fun acc e =>
      match e with
      | IdleEvent.audioStart t => some t
      | _ => acc)
    none

/-- Running a batch of idle-check ticks at the given times; returns the final
state and the launch decision of each tick in order. -/
def ticksRun (s : IdleState) (times : List Int) : IdleState × List Bool :=
  match times with
  | [] => (s, [])
  | n :: rest =>
    let p := tickStep s n
    let q := ticksRun p.1 rest
    (q.1, p.2 :: q.2)

/-! ### Ordered effect traces of the query and speak paths
(index.ts lines 159-249 and 423-534) -/

/-- Observable effects, in program order, of the narration code paths:
`setFlag` and `clearFlag` are `hasQueriedNearbyPlaces.set(userId, true)` and
`resetNearbyPlacesFlag(userId)`; `fetchLocation` is the awaited
`getLocationAndGeocode`; `storeResponse` and `storePlaces` are the
history updates; `audioStartMark` is `updateLastAudioFinishTime(userId)`;
`speakCall` is the issuing of `session.audio.speak(...)`; and
`speakReturn ok` is that promise settling (`ok = true` resolve,
`ok = false` reject). -/
inductive Act where
  | setFlag
  | clearFlag
  | fetchLocation
  | storeResponse
  | storePlaces
  | audioStartMark
  | speakCall
  | speakReturn (ok : Bool)
deriving Repr, DecidableEq

/-- JavaScript truthiness of the optional string returned by
`getNearbyPlaces` as tested by `if (nearbyPlaces)` (index.ts line 194):
`null`/`undefined` and the empty string are falsy. -/
def strTruthy : Option String → Bool
  | none => false
  | some s => decide (s ≠ "")

/-- Effect trace of one launched nearby-places query
(index.ts lines 159-249).  `locOk` is whether the awaited
`getLocationAndGeocode` produced a result with a `geocoded` field
(line 166), `cityCountryOk` whether both city and country were present
(line 176), `resp` the `getNearbyPlaces` result (line 185), and `speakOk`
the outcome of `session.audio.speak(nearbyPlaces)` (line 221); the
`catch` at line 225 and the failure branches at lines 230-248 each call
`resetNearbyPlacesFlag`. -/
def nearbyQueryActs (locOk cityCountryOk : Bool) (resp : Option String)
    (speakOk : Bool) : List Act :=
  Act.setFlag :: Act.fetchLocation ::
    (if locOk then
      if cityCountryOk then
        if strTruthy resp then
          [Act.storeResponse, Act.storePlaces, Act.audioStartMark,
            Act.speakCall, Act.speakReturn speakOk, Act.clearFlag]
        else
          [Act.clearFlag]
      else
        [Act.clearFlag]
    else
      [Act.clearFlag])

/-- Effect trace of the welcome-message speak in `onSession`
(index.ts lines 485-495): `updateLastAudioFinishTime` before the call,
then `session.audio.speak(welcomeMessage)`; the `.then` handler calls
`resetNearbyPlacesFlag`, while the `.catch` handler only logs a warning. -/
def welcomeSpeakActs (ok : Bool) : List Act :=
  Act.audioStartMark :: Act.speakCall :: Act.speakReturn ok ::
    (if ok then [Act.clearFlag] else [])

/-- Effect trace of the city-description speak in `onSession`
(index.ts lines 503-515): same shape as the welcome speak — the flag is
reset in `.then` only, the `.catch` handler only logs. -/
def cityDescriptionSpeakActs (ok : Bool) : List Act :=
  Act.audioStartMark :: Act.speakCall :: Act.speakReturn ok ::
    (if ok then [Act.clearFlag] else [])

/-- Effect trace of the analysis-result (Seeniq response) speak in the
button-press handler (index.ts lines 423-433): again the flag is reset in
`.then` only, the `.catch` handler only logs. -/
def seeniqSpeakActs (ok : Bool) : List Act :=
  Act.audioStartMark :: Act.speakCall :: Act.speakReturn ok ::
    (if ok then [Act.clearFlag] else [])

/-! ### Location snapshots and the EXIF annotation pipeline
(location.ts, photo.ts lines 237-313, button.ts) -/

/-- The `LocationUpdate` interface (location.ts lines 57-64, repeated in
photo.ts lines 44-51).  Coordinates are JavaScript numbers, embedded
as `ℚ`; the timestamp is epoch milliseconds. -/
structure LocationUpdate where
  latitude : ℚ
  longitude : ℚ
  accuracy : ℚ
  altitude : Option ℚ
  timestamp : Int
  correlationId : Option String
deriving Repr, DecidableEq

/-- EXIF GPS tag identifiers from `piexif.GPSIFD`. -/
def GPSLatitudeRef : Nat := 1

/-- EXIF GPS tag identifier `piexif.GPSIFD.GPSLatitude`. -/
def GPSLatitude : Nat := 2

/-- EXIF GPS tag identifier `piexif.GPSIFD.GPSLongitudeRef`. -/
def GPSLongitudeRef : Nat := 3

/-- EXIF GPS tag identifier `piexif.GPSIFD.GPSLongitude`. -/
def GPSLongitude : Nat := 4

/-- EXIF GPS tag identifier `piexif.GPSIFD.GPSAltitudeRef`. -/
def GPSAltitudeRef : Nat := 5

/-- EXIF GPS tag identifier `piexif.GPSIFD.GPSAltitude`. -/
def GPSAltitude : Nat := 6

/-- EXIF GPS tag identifier `piexif.GPSIFD.GPSHPositioningError`. -/
def GPSHPositioningError : Nat := 31

/-- Values stored under GPS tags: reference strings, byte flags, and
rational or rational-list encodings. -/
inductive GpsVal where
  | str (s : String)
  | byte (n : Nat)
  | rat (num den : Int)
  | rats (l : List (Int × Int))
deriving Repr, DecidableEq

/-- The EXIF object manipulated by `addLocationToExif`: only its `GPS`
dictionary is relevant to the embedded code paths. -/
structure ExifObj where
  gps : List (Nat × GpsVal)
deriving Repr, DecidableEq

/-- JavaScript object property assignment `exifObj['GPS'][tag] = value`. -/
def gpsSet (m : List (Nat × GpsVal)) (k : Nat) (v : GpsVal) :
    List (Nat × GpsVal) :=
  (k, v) :: m.filter (fun p => p.1 != k)

/-- Whether the image bytes begin with the JPEG start-of-image marker
`0xFF 0xD8`. -/
def jpegSOI (bytes : List Nat) : Bool :=
  decide (bytes.take 2 = [0xff, 0xd8])

/-- Modelled from the spec of the third-party piexifjs dependency:
`piexif.load` accepts JPEG data (leading `0xFF 0xD8`) and TIFF data
(leading `II` or `MM`) and throws for anything else, which Lean models
as `none`.  The parsed EXIF content is abstracted to an empty record: the
repository code overwrites every GPS tag it reads back, so only the
throw/no-throw behaviour of `load` is observable downstream. -/
def piexifLoad (bytes : List Nat) : Option ExifObj :=
  if jpegSOI bytes || decide (bytes.take 2 = [0x49, 0x49]) ||
      decide (bytes.take 2 = [0x4d, 0x4d]) then
    some { gps := [] }
  else
    none

/-- Modelled from the spec of the third-party piexifjs dependency:
`piexif.dump` serialises the EXIF object to a byte string beginning with
the `Exif\x00\x00` header; the body serialisation is abstracted to the
list of tag numbers. -/
def piexifDump (e : ExifObj) : List Nat :=
  0x45 :: 0x78 :: 0x69 :: 0x66 :: 0x00 :: 0x00 :: e.gps.map Prod.fst

/-- Modelled from the spec of the third-party piexifjs dependency:
`piexif.insert` requires the EXIF bytes to begin with the `Exif` header
and throws `Given data is not jpeg` unless the image bytes begin with the
JPEG start-of-image marker; both throws are modelled as `none`.  On JPEG
data it splices the EXIF bytes into an APP1 segment after the SOI marker
(the segment arithmetic is abstracted). -/
def piexifInsert (exifBytes : List Nat) (imageBytes : List Nat) :
    Option (List Nat) :=
  if decide (exifBytes.take 6 ≠ [0x45, 0x78, 0x69, 0x66, 0x00, 0x00]) then
    none
  else if jpegSOI imageBytes then
    some (0xff :: 0xd8 :: 0xff :: 0xe1 :: (exifBytes ++ imageBytes.drop 2))
  else
    none

/-- Degrees/minutes/centi-seconds rational encoding of an absolute
coordinate, from photo.ts lines 258-265: `Math.floor` of the degrees and
minutes, and `Math.floor(sec * 100)` over denominator 100. -/
def dmsCentiSeconds (vabs : ℚ) : List (Int × Int) :=
  let deg : Int := ⌊vabs⌋
  let mins : Int := ⌊(vabs - deg) * 60⌋
  let sec : ℚ := (vabs - deg - (mins : ℚ) / 60) * 3600
  [(deg, 1), (mins, 1), (⌊sec * 100⌋, 100)]

/-- Shallow embedding of `addLocationToExif` (photo.ts lines 237-313).
The base64 data-URL wrapping at lines 244-245 and the base64 extraction
at lines 295-302 transport the same bytes and are elided: the model works
on the raw image bytes directly.  The `piexif.load` call is wrapped in a
`try/catch` that substitutes a fresh empty EXIF object (lines 249-254);
the outer `catch` at lines 309-312 turns any `piexif.insert` throw into a
`null` return, modelled as `none`. -/
def addLocationToExif (photoBuffer : List Nat) (location : LocationUpdate) :
    Option (List Nat) :=
  let exifObj : ExifObj := (piexifLoad photoBuffer).getD { gps := [] }
  let latAbs : ℚ := |location.latitude|
  let lonAbs : ℚ := |location.longitude|
  let gps := gpsSet exifObj.gps GPSLatitude (GpsVal.rats (dmsCentiSeconds latAbs))
  let gps := gpsSet gps GPSLatitudeRef
    (GpsVal.str (if 0 ≤ location.latitude then "N" else "S"))
  let gps := gpsSet gps GPSLongitude (GpsVal.rats (dmsCentiSeconds lonAbs))
  let gps := gpsSet gps GPSLongitudeRef
    (GpsVal.str (if 0 ≤ location.longitude then "E" else "W"))
  let gps :=
    match location.altitude with
    | some alt =>
      gpsSet (gpsSet gps GPSAltitude (GpsVal.rat (round (|alt| * 100)) 100))
        GPSAltitudeRef (GpsVal.byte (if 0 ≤ alt then 0 else 1))
    | none => gps
  match piexifInsert (piexifDump { gps := gps }) photoBuffer with
  | some newBytes => some newBytes
  | none => none

/-- Whether one character list occurs at the start of another. -/
def startsWithChars : List Char → List Char → Bool
  | _, [] => true
  | [], _ :: _ => false
  | h :: hs, n :: ns => if h = n then startsWithChars hs ns else false

/-- Whether a character list occurs anywhere in another. -/
def charsContain (needle : List Char) : List Char → Bool
  | [] => startsWithChars [] needle
  | h :: t => startsWithChars (h :: t) needle || charsContain needle t

/-- JavaScript `String.prototype.toLowerCase`, on the character list. -/
def lowerChars (s : String) : List Char :=
  s.toList.map Char.toLower

/-- The JPEG mime check of `addGpsExifIfAvailable` (button.ts lines 86-87):
lower-case the mime type (`mimeType ?? ''`) and test whether it includes
`jpeg` or `jpg` (`String.prototype.includes`). -/
def isJpegMime (mimeType : Option String) : Bool :=
  let normalizedMime := lowerChars (mimeType.getD "")
  charsContain "jpeg".toList normalizedMime ||
    charsContain "jpg".toList normalizedMime

/-- Raw location object returned by the session location capability as
probed by `addGpsExifIfAvailable` (button.ts lines 108-138): a field is
`some` exactly when the corresponding property passes its
`typeof ... === 'number'` check. -/
structure RawGpsLocation where
  latitude : Option ℚ
  longitude : Option ℚ
  altitude : Option ℚ
  accuracy : Option ℚ
deriving Repr, DecidableEq

/-- Result of `addGpsExifIfAvailable`: the source returns the input
`base64Photo` string itself on every fallback path (modelled
`unchanged`) and the re-encoded updated binary on success (modelled
`embedded` carrying the updated bytes; the base64 transport is elided). -/
inductive GpsEmbedResult where
  | unchanged
  | embedded (bytes : List Nat)
deriving Repr, DecidableEq

/-- Degrees/minutes/milli-seconds rational encoding from
`decimalDegreesToDmsRational` (button.ts lines 155-166):
`Math.round(seconds * 1000)` over denominator 1000. -/
def dmsMilliSeconds (v : ℚ) : List (Int × Int) :=
  let degrees : Int := ⌊v⌋
  let minutesFloat : ℚ := (v - degrees) * 60
  let minutes : Int := ⌊minutesFloat⌋
  let seconds : ℚ := (minutesFloat - minutes) * 60
  [(degrees, 1), (minutes, 1), (round (seconds * 1000), 1000)]

/-- Shallow embedding of `addGpsExifIfAvailable` (button.ts lines 76-153).
`hasLocationApi` is the `session?.location?.getLatestLocation` presence
check; `fetchThrows` models the `getLatestLocation` call rejecting
(caught at lines 103-106); `fetched` is the awaited location object,
`none` when it is null/undefined; `decodedBytes` are the bytes of
`Buffer.from(base64Photo, 'base64')`.  The `try` block around the piexif
calls returns the input unchanged on any throw (lines 149-152). -/
def addGpsExifIfAvailable (base64Photo : String) (mimeType : Option String)
    (hasLocationApi : Bool) (fetchThrows : Bool)
    (fetched : Option RawGpsLocation) (decodedBytes : List Nat) :
    GpsEmbedResult :=
  if base64Photo = "" then GpsEmbedResult.unchanged
  else if !isJpegMime mimeType then GpsEmbedResult.unchanged
  else if !hasLocationApi then GpsEmbedResult.unchanged
  else if fetchThrows then GpsEmbedResult.unchanged
  else
    match fetched with
    | none => GpsEmbedResult.unchanged
    | some loc =>
      match loc.latitude, loc.longitude with
      | some lat, some lon =>
        (match piexifLoad decodedBytes with
        | none => GpsEmbedResult.unchanged
        | some exif =>
          let gps := gpsSet exif.gps GPSLatitudeRef
            (GpsVal.str (if 0 ≤ lat then "N" else "S"))
          let gps := gpsSet gps GPSLatitude (GpsVal.rats (dmsMilliSeconds |lat|))
          let gps := gpsSet gps GPSLongitudeRef
            (GpsVal.str (if 0 ≤ lon then "E" else "W"))
          let gps := gpsSet gps GPSLongitude (GpsVal.rats (dmsMilliSeconds |lon|))
          let gps :=
            match loc.altitude with
            | some alt =>
              gpsSet (gpsSet gps GPSAltitudeRef
                  (GpsVal.byte (if alt < 0 then 1 else 0)))
                GPSAltitude (GpsVal.rat (round (|alt| * 100)) 100)
            | none => gps
          let gps :=
            match loc.accuracy with
            | some acc =>
              gpsSet gps GPSHPositioningError
                (GpsVal.rat (round (|acc| * 100)) 100)
            | none => gps
          match piexifInsert (piexifDump { gps := gps }) decodedBytes with
          | some updated => GpsEmbedResult.embedded updated
          | none => GpsEmbedResult.unchanged)
      | _, _ => GpsEmbedResult.unchanged

/-- The first bytes of a PNG file: the PNG signature, which is not a JPEG
start-of-image marker. -/
def pngBytes : List Nat := [0x89, 0x50, 0x4e, 0x47, 0x0d, 0x0a, 0x1a, 0x0a]

/-- A concrete location snapshot used for concrete evaluations. -/
def exLocation : LocationUpdate :=
  { latitude := 40, longitude := -74, accuracy := 5,
    altitude := none, timestamp := 1, correlationId := none }

/-! ### The per-user location cache (location.ts lines 18-167) -/

/-- The `CachedLocation` cache entry (location.ts lines 18-21). -/
structure CachedLocation where
  location : LocationUpdate
  timestamp : Int
deriving Repr, DecidableEq

/-- The cache time-to-live, `CACHE_TTL_MS = 30 * 1000`
(location.ts line 24). -/
def CACHE_TTL_MS : Int := 30 * 1000

/-- `getCachedLocation` (location.ts lines 29-42) for one user: returns
the cached location when its age is at most the TTL, and deletes an
expired entry.  The second component is the user's cache entry after the
call. -/
def getCachedLocation (cache : Option CachedLocation) (now : Int) :
    Option LocationUpdate × Option CachedLocation :=
  match cache with
  | none => (none, none)
  | some cached =>
    let age := now - cached.timestamp
    if CACHE_TTL_MS < age then (none, none)
    else (some cached.location, some cached)

/-- Raw location fields probed from the SDK result (location.ts lines
105-110): each field is the result of the `??` fallback chain over the
candidate property names, `none` when every candidate was undefined. -/
structure RawLocation where
  latitude : Option ℚ
  longitude : Option ℚ
  accuracy : Option ℚ
  altitude : Option ℚ
  timestamp : Option Int
  correlationId : Option String
deriving Repr, DecidableEq

/-- JavaScript truthiness of the probed timestamp as tested by
`!timestamp` (location.ts line 138): undefined and the number 0 are
falsy. -/
def tsTruthy : Option Int → Bool
  | none => false
  | some t => decide (t ≠ 0)

/-- JavaScript truthiness of the probed correlation id as tested by
`if (correlationId)` (location.ts line 154). -/
def cidTruthy : Option String → Bool
  | none => false
  | some s => decide (s ≠ "")

/-- Validation and assembly of the `LocationUpdate` result
(location.ts lines 138-157): absent latitude, longitude or accuracy, or a
falsy timestamp, yield `undefined`; altitude and correlationId are copied
only when present/truthy. -/
def buildLocation (raw : RawLocation) : Option LocationUpdate :=
  match raw.latitude, raw.longitude, raw.accuracy with
  | some lat, some lon, some acc =>
    if tsTruthy raw.timestamp then
      some { latitude := lat, longitude := lon, accuracy := acc,
             altitude := raw.altitude,
             timestamp := raw.timestamp.getD 0,
             correlationId :=
               if cidTruthy raw.correlationId then raw.correlationId else none }
    else none
  | _, _, _ => none

/-- `getLocation` (location.ts lines 76-167) for a single user, as a
transformer of that user's cache entry.  `now` is `Date.now()`; `fetch`
models the awaited `session.location.getLatestLocation` call — `none`
when the call throws (the catch at lines 163-166 then returns
`undefined`), `some raw` its probed fields otherwise.  The result triple
is the function's return value, the cache entry after the call, and
whether a live fetch was issued. -/
def getLocation (cache : Option CachedLocation) (now : Int) (useCache : Bool)
    (fetch : Option RawLocation) :
    Option LocationUpdate × Option CachedLocation × Bool :=
  let hit := if useCache then getCachedLocation cache now else (none, cache)
  match hit with
  | (some cached, cacheAfter) => (some cached, cacheAfter, false)
  | (none, cacheAfter) =>
    match fetch with
    | none => (none, cacheAfter, true)
    | some raw =>
      match buildLocation raw with
      | none => (none, cacheAfter, true)
      | some result => (some result, some ⟨result, now⟩, true)

/-- A concrete raw location with all required fields present. -/
def rawExample : RawLocation :=
  { latitude := some 1, longitude := some 2, accuracy := some 3,
    altitude := none, timestamp := some 5, correlationId := none }

/-- The snapshot `buildLocation` assembles from `rawExample`. -/
def locExample : LocationUpdate :=
  { latitude := 1, longitude := 2, accuracy := 3,
    altitude := none, timestamp := 5, correlationId := none }

/-! ### Shared map operations (JavaScript `Map` on string keys) -/

/-- Association-list lookup mirroring `Map.prototype.get`:
first match wins (JavaScript maps hold at most one binding per key). -/
def mapGet {α : Type} (m : List (String × α)) (k : String) : Option α :=
  match m with
  | [] => none
  | (k', v) :: rest => if k' = k then some v else mapGet rest k

/-- Association-list update mirroring `Map.prototype.set`. -/
def mapSet {α : Type} (m : List (String × α)) (k : String) (v : α) :
    List (String × α) :=
  (k, v) :: m.filter (fun p => p.1 != k)

/-- Association-list removal mirroring `Map.prototype.delete`. -/
def mapDelete {α : Type} (m : List (String × α)) (k : String) :
    List (String × α) :=
  m.filter (fun p => p.1 != k)

/-! ### Photo-fetch endpoints (routes.ts lines 382-480) -/

/-- The `StoredPhoto` record (index.ts lines 31-39, routes.ts
lines 41-49); the buffer is the raw byte list. -/
structure StoredPhoto where
  requestId : String
  buffer : List Nat
  timestamp : Int
  userId : String
  mimeType : String
  filename : String
  size : Nat
deriving Repr, DecidableEq

/-- The JSON envelope returned by `/api/photo-base64/:requestId`
(routes.ts lines 470-479); the base64 string and the data URL carry the
same bytes as the buffer and are represented by those bytes. -/
structure PhotoEnvelope where
  requestId : String
  timestamp : Int
  mimeType : String
  filename : String
  size : Nat
  userId : String
  base64 : List Nat
deriving Repr, DecidableEq

/-- The HTTP responses the photo-fetch endpoints can produce. -/
inductive RouteResponse where
  | badRequest (error : String)
  | notFound (error : String)
  | forbidden (error : String)
  | okBytes (mimeType : String) (buffer : List Nat)
  | okJson (envelope : PhotoEnvelope)
deriving Repr, DecidableEq

/-- The `/api/photo/:requestId` handler (routes.ts lines 414-442):
400 on a falsy `userId` query parameter, 404 when no stored photo has the
request id, 403 when the stored photo's owner differs from the requester,
otherwise the photo bytes with the stored mime type. -/
def apiPhoto (photosMap : List (String × StoredPhoto)) (requestId : String)
    (userId : Option String) : RouteResponse :=
  match userId with
  | none => RouteResponse.badRequest "userId is required"
  | some uid =>
    if uid = "" then RouteResponse.badRequest "userId is required"
    else
      match mapGet photosMap requestId with
      | none => RouteResponse.notFound "Photo not found"
      | some photo =>
        if photo.userId ≠ uid then
          RouteResponse.forbidden "Access denied: photo belongs to different user"
        else
          RouteResponse.okBytes photo.mimeType photo.buffer

/-- The `/api/photo-base64/:requestId` handler (routes.ts lines 446-480):
same guards as `/api/photo/:requestId`, but the success response is the
base64 JSON envelope. -/
def apiPhotoBase64 (photosMap : List (String × StoredPhoto))
    (requestId : String) (userId : Option String) : RouteResponse :=
  match userId with
  | none => RouteResponse.badRequest "userId is required"
  | some uid =>
    if uid = "" then RouteResponse.badRequest "userId is required"
    else
      match mapGet photosMap requestId with
      | none => RouteResponse.notFound "Photo not found"
      | some photo =>
        if photo.userId ≠ uid then
          RouteResponse.forbidden "Access denied: photo belongs to different user"
        else
          RouteResponse.okJson
            { requestId := photo.requestId, timestamp := photo.timestamp,
              mimeType := photo.mimeType, filename := photo.filename,
              size := photo.size, userId := photo.userId,
              base64 := photo.buffer }

/-- A concrete stored photo owned by user `A`. -/
def photoExample : StoredPhoto :=
  { requestId := "r1", buffer := [1, 2, 3], timestamp := 0, userId := "A",
    mimeType := "image/jpeg", filename := "photo.jpg", size := 3 }

/-- A concrete photos map holding `photoExample` under request id `r1`. -/
def photosMapExample : List (String × StoredPhoto) :=
  [("r1", photoExample)]

/-! ### Explanation extraction (photo.ts lines 202-232) -/

/-- JSON-like payloads returned by the analysis service. -/
inductive Json where
  | jnull
  | jbool (b : Bool)
  | jnum (n : Int)
  | jstr (s : String)
  | jarr (elems : List Json)
  | jobj (fields : List (String × Json))

/-- JavaScript falsiness of a payload as tested by `if (!payload)`
(photo.ts line 203): `null`/`undefined`, `false`, `0` and the empty
string are falsy. -/
def jfalsy : Json → Bool
  | Json.jnull => true
  | Json.jbool b => !b
  | Json.jnum n => decide (n = 0)
  | Json.jstr s => decide (s = "")
  | Json.jarr _ => false
  | Json.jobj _ => false

/-- Whether `typeof payload === 'object'`: plain objects, arrays, and
`null` (a JavaScript quirk) all have typeof `object`. -/
def jtypeofObject : Json → Bool
  | Json.jnull => true
  | Json.jarr _ => true
  | Json.jobj _ => true
  | _ => false

/-- Field lookup in an object literal, first match wins. -/
def jgetFields : List (String × Json) → String → Option Json
  | [], _ => none
  | (k, v) :: rest, key => if k = key then some v else jgetFields rest key

/-- JavaScript property access `payload?.[key]` for a string key:
only plain objects yield property values; everything else gives
`undefined`, modelled as `none`. -/
def jget : Json → String → Option Json
  | Json.jobj fields, key => jgetFields fields key
  | _, _ => none

/-- JavaScript `String.prototype.trim`: strip whitespace from both ends. -/
def jsTrim (s : String) : String :=
  String.mk
    (((s.toList.dropWhile Char.isWhitespace).reverse.dropWhile
        Char.isWhitespace).reverse)

/-- The ordered candidate field names probed by `extractExplanationText`
(photo.ts lines 211-218). -/
def candidateKeys : List String :=
  ["explanation", "explanation_text", "explanationText", "text", "message",
    "summary"]

/-- The probing loop of photo.ts lines 220-225: the first candidate key
whose value is a string with a non-blank trim, returned trimmed. -/
def firstNonBlank (payload : Json) : List String → Option String
  | [] => none
  | key :: rest =>
    match jget payload key with
    | some (Json.jstr v) =>
      if jsTrim v = "" then firstNonBlank payload rest else some (jsTrim v)
    | _ => firstNonBlank payload rest

/-- Structural bound used by the recursion of `extractExplanationText`:
a field's value is smaller than the field list containing it. -/
def jgetFields_sizeOf_lt :
    ∀ (fields : List (String × Json)) (key : String) (v : Json),
      jgetFields fields key = some v → sizeOf v < sizeOf fields := by
  intro fields key
  induction fields with
  | nil =>
    intro v h
    simp [jgetFields] at h
  | cons p rest ih =>
    obtain ⟨k, w⟩ := p
    intro v h
    simp only [jgetFields] at h
    by_cases hk : k = key
    · subst hk
      rw [if_pos rfl] at h
      cases h
      simp only [List.cons.sizeOf_spec, Prod.mk.sizeOf_spec]
      omega
    · rw [if_neg hk] at h
      have := ih v h
      simp only [List.cons.sizeOf_spec]
      omega

/-- Shallow embedding of `extractExplanationText` (photo.ts lines
202-232): falsy payloads give `null`; string payloads are trimmed and
returned when non-blank; otherwise the candidate keys are probed in
order, and when none matches and the payload has a truthy object-valued
`data` property, the function recurses into it.  Non-object, non-string
payloads fall through all probes and return `null`. -/
def extractExplanationText (payload : Json) : Option String :=
  if jfalsy payload then none
  else
    match payload with
    | Json.jstr s =>
      if jsTrim s = "" then none else some (jsTrim s)
    | Json.jobj fields =>
      match firstNonBlank (Json.jobj fields) candidateKeys with
      | some t => some t
      | none =>
        match hd : jgetFields fields "data" with
        | some d =>
          if jtypeofObject d && !(jfalsy d) then extractExplanationText d
          else none
        | none => none
    | other =>
      firstNonBlank other candidateKeys
termination_by sizeOf payload
decreasing_by
  simp_wf
  have h := jgetFields_sizeOf_lt fields "data" d hd
  omega

/-- Modelled from the claim's words: an extraction that recurses AT MOST
once into a nested `data` object — the nested object's candidate keys
are probed, but no deeper `data` chain is followed. -/
def extractOnceSpec (payload : Json) : Option String :=
  if jfalsy payload then none
  else
    match payload with
    | Json.jstr s =>
      if jsTrim s = "" then none else some (jsTrim s)
    | p =>
      match firstNonBlank p candidateKeys with
      | some t => some t
      | none =>
        match jget p "data" with
        | some d =>
          if jtypeofObject d && !(jfalsy d) then firstNonBlank d candidateKeys
          else none
        | none => none

/-- Wrapping a payload in `n` layers of `{ data: ... }`. -/
def nestData : Nat → Json → Json
  | 0, p => p
  | n + 1, p => Json.jobj [("data", nestData n p)]

/-- A doubly-nested analysis response: the explanation sits two `data`
levels deep. -/
def deepPayload : Json :=
  nestData 2 (Json.jobj [("explanation", Json.jstr "Deep explanation")])

/-! ### Per-process session state and the session lifecycle
(index.ts lines 60-65, 312-337, 552-574; audio.ts; routes.ts
lines 112-121) -/

/-- The per-process mutable state touched by the session lifecycle: the
user-keyed maps of `ExampleMentraOSApp` (index.ts lines 61-65), the
`activeSessions` registry (routes.ts line 38), the `lastAudioStartTime`
tracker (audio.ts line 9), and the live interval timers created by
`setInterval`, modelled as (timer id, owning user) pairs with a fresh-id
counter. -/
structure AppState where
  photosMap : List (String × StoredPhoto)
  idleCheckIntervals : List (String × Nat)
  hasQueriedNearbyPlaces : List (String × Bool)
  mentionedPlaces : List (String × List String)
  previousResponses : List (String × List String)
  activeSessions : List (String × Nat)
  lastAudioStartTime : List (String × Int)
  activeTimers : List (Nat × String)
  nextTimerId : Nat
deriving Repr, DecidableEq

/-- `stopIdleCheck` (index.ts lines 331-337): when an interval is
registered for the user, `clearInterval` it — remove it from the live
timers — and delete the map entry; otherwise do nothing. -/
def stopIdleCheck (st : AppState) (userId : String) : AppState :=
  match mapGet st.idleCheckIntervals userId with
  | some interval =>
    { st with
      activeTimers := st.activeTimers.filter (fun p => p.1 != interval),
      idleCheckIntervals := mapDelete st.idleCheckIntervals userId }
  | none => st

/-- `startIdleCheck` (index.ts lines 312-326): first clear any existing
interval via `stopIdleCheck`, then create a fresh interval timer and
register it for the user. -/
def startIdleCheck (st : AppState) (userId : String) : AppState :=
  let st1 := stopIdleCheck st userId
  let interval := st1.nextTimerId
  { st1 with
    activeTimers := (interval, userId) :: st1.activeTimers,
    idleCheckIntervals := mapSet st1.idleCheckIntervals userId interval,
    nextTimerId := interval + 1 }

/-- `onStop` (index.ts lines 552-574): stop the idle check, clear the
audio-start record (`clearAudioFinishTime`, audio.ts line 28), delete the
nearby-places guard flag, and unregister the session handle
(routes.ts lines 119-121).  The deletions of `mentionedPlaces` and
`previousResponses` are commented out in the source (lines 568-570). -/
def onStop (st : AppState) (userId : String) : AppState :=
  let st1 := stopIdleCheck st userId
  { st1 with
    lastAudioStartTime := mapDelete st1.lastAudioStartTime userId,
    hasQueriedNearbyPlaces := mapDelete st1.hasQueriedNearbyPlaces userId,
    activeSessions := mapDelete st1.activeSessions userId }

/-- A call into the idle-check timer management. -/
inductive IdleCheckCall where
  | start (userId : String)
  | stop (userId : String)
deriving Repr, DecidableEq

/-- Apply one idle-check call to the process state. -/
def applyCall (st : AppState) (c : IdleCheckCall) : AppState :=
  match c with
  | IdleCheckCall.start u => startIdleCheck st u
  | IdleCheckCall.stop u => stopIdleCheck st u

/-- The process state at startup: every map empty, no live timers. -/
def initialAppState : AppState :=
  { photosMap := [], idleCheckIntervals := [], hasQueriedNearbyPlaces := [],
    mentionedPlaces := [], previousResponses := [], activeSessions := [],
    lastAudioStartTime := [], activeTimers := [], nextTimerId := 0 }

/-- The process state after a sequence of idle-check calls. -/
def runCalls (calls : List IdleCheckCall) : AppState :=
  calls.foldl applyCall initialAppState

/-- The live interval timers owned by a given user. -/
def timersFor (st : AppState) (u : String) : List (Nat × String) :=
  st.activeTimers.filter (fun p => p.2 == u)

/-- Timer bookkeeping invariant maintained by the idle-check calls: every
live timer is registered in `idleCheckIntervals` under its owner,
registered interval ids identify their user uniquely, every live or
registered id is below the fresh-id counter, and the live timer list has
no duplicate entries. -/
def TimerInv (st : AppState) : Prop :=
  (∀ i u, (i, u) ∈ st.activeTimers →
    mapGet st.idleCheckIntervals u = some i)
  ∧ (∀ u u' i, mapGet st.idleCheckIntervals u = some i →
      mapGet st.idleCheckIntervals u' = some i → u = u')
  ∧ (∀ i u, (i, u) ∈ st.activeTimers → i < st.nextTimerId)
  ∧ (∀ u i, mapGet st.idleCheckIntervals u = some i → i < st.nextTimerId)
  ∧ st.activeTimers.Nodup

end Seeniq

namespace Seeniq

/-! ### Theorems about the idle loop (claims C1, C2) -/

theorem tickStep_lastAudioStart (s : IdleState) (n : Int) :
    (tickStep s n).1.lastAudioStart = s.lastAudioStart := by
  obtain ⟨last, q⟩ := s
  cases last with
  | none => rfl
  | some t =>
    simp only [tickStep]
    split
    · rfl
    · split <;> split <;> rfl

theorem foldl_stepEvent_lastAudioStart (evs : List IdleEvent) (s : IdleState) :
    (List.foldl stepEvent s evs).lastAudioStart =
      List.foldl
        (fun acc e =>
          match e with
          | IdleEvent.audioStart t => some t
          | _ => acc)
        s.lastAudioStart evs := by
  induction evs generalizing s with
  | nil => rfl
  | cons e rest ih =>
    cases e with
    | audioStart t =>
      simp only [List.foldl_cons]
      exact ih { s with lastAudioStart := some t }
    | tick t =>
      simp only [List.foldl_cons]
      rw [ih (stepEvent s (IdleEvent.tick t))]
      have : (stepEvent s (IdleEvent.tick t)).lastAudioStart = s.lastAudioStart :=
        tickStep_lastAudioStart s t
      rw [this]
    | queryDone =>
      simp only [List.foldl_cons]
      rw [ih (stepEvent s IdleEvent.queryDone)]
      rfl

theorem runIdle_lastAudioStart (evs : List IdleEvent) :
    (runIdle evs).lastAudioStart = lastAudioStartOf evs := by
  unfold runIdle lastAudioStartOf
  exact foldl_stepEvent_lastAudioStart evs initIdleState

theorem lastAudioStartOf_mem (evs : List IdleEvent) (t : Int)
    (h : lastAudioStartOf evs = some t) : IdleEvent.audioStart t ∈ evs := by
  unfold lastAudioStartOf at h
  have haux : ∀ (l : List IdleEvent) (acc : Option Int),
      List.foldl
          (fun acc e =>
            match e with
            | IdleEvent.audioStart t => some t
            | _ => acc)
          acc l = some t →
        IdleEvent.audioStart t ∈ l ∨ acc = some t := by
    intro l
    induction l with
    | nil =>
      intro acc hacc
      exact Or.inr hacc
    | cons e rest ih =>
      intro acc hacc
      rw [List.foldl_cons] at hacc
      rcases ih _ hacc with hmem | hacc'
      · exact Or.inl (List.mem_cons_of_mem e hmem)
      · cases e with
        | audioStart u =>
          have : u = t := Option.some.inj hacc'
          subst this
          exact Or.inl (List.mem_cons_self _ _)
        | tick u => exact Or.inr hacc'
        | queryDone => exact Or.inr hacc'
  rcases haux evs none h with hmem | habs
  · exact hmem
  · exact Option.noConfusion habs

/-- C1: for every sequence of audio-start, tick and query-completion events
whose audio-start timestamps are positive (they are recorded from
`Date.now()`, epoch milliseconds, hence truthy), the idle loop launches the
nearby-places query at a tick evaluated at time `now` if and only if at
least 30 seconds (`IDLE_THRESHOLD_MS`) have elapsed since the user's most
recent audio-start timestamp and the guard flag is clear at that tick; and
if no audio-start has ever been recorded, no tick launches a query. -/
theorem idle_tick_launches_iff (evs : List IdleEvent) (now : Int)
    (hpos : ∀ t : Int, IdleEvent.audioStart t ∈ evs → 0 < t) :
    ((tickStep (runIdle evs) now).2 = true ↔
      ∃ t, lastAudioStartOf evs = some t ∧ IDLE_THRESHOLD_MS ≤ now - t ∧
        (runIdle evs).hasQueried = false)
    ∧ (lastAudioStartOf evs = none → (tickStep (runIdle evs) now).2 = false) := by
  have hlast := runIdle_lastAudioStart evs
  constructor
  · unfold tickStep
    rw [← hlast]
    cases h : (runIdle evs).lastAudioStart with
    | none => simp
    | some t =>
      have ht : ¬ t = 0 := by
        have hmem := lastAudioStartOf_mem evs t (hlast.symm.trans h)
        exact (hpos t hmem).ne'
      dsimp only
      rw [if_neg ht]
      by_cases hth : IDLE_THRESHOLD_MS ≤ now - t
      · cases hq : (runIdle evs).hasQueried <;> simp [hth, hq]
      · cases hq : (runIdle evs).hasQueried <;> simp [hth, hq]
  · intro hnone
    unfold tickStep
    rw [← hlast] at hnone
    rw [hnone]

/-- Witness for C1: with a single audio start at time 5 and a tick at
time 30005, the query is launched. -/
theorem idle_tick_launches_iff_witness :
    (tickStep (runIdle [IdleEvent.audioStart 5]) 30005).2 = true :=
  (idle_tick_launches_iff [IdleEvent.audioStart 5] 30005
      (by
        intro t ht
        simp at ht
        omega)).1.mpr
    ⟨5, by decide, by decide, by decide⟩

/-- C2: once the guard flag has been set (state `QueryInFlight`), every
further idle-loop tick that runs before the flag is cleared, with no new
audio-start event (so the elapsed time stays at or above the threshold),
performs no state change and launches no second query. -/
theorem queryInFlight_ticks_noop (s : IdleState) (t : Int) (times : List Int)
    (hlast : s.lastAudioStart = some t) (hflag : s.hasQueried = true)
    (helapsed : ∀ n ∈ times, IDLE_THRESHOLD_MS ≤ n - t) :
    ticksRun s times = (s, times.map fun _ => false) := by
  induction times with
  | nil => rfl
  | cons n rest ih =>
    have hn : IDLE_THRESHOLD_MS ≤ n - t := helapsed n (by simp)
    have hstep : tickStep s n = (s, false) := by
      unfold tickStep
      rw [hlast]
      by_cases h0 : t = 0
      · simp [h0]
      · simp [h0, hn, hflag]
    unfold ticksRun
    rw [hstep]
    have := ih (fun m hm => helapsed m (by simp [hm]))
    simp [this]

/-- Witness for C2: with the flag set and audio last started at time 0,
ticks at 30000 and 47000 leave the state unchanged and launch nothing. -/
theorem queryInFlight_ticks_noop_witness :
    ticksRun ⟨some 0, true⟩ [30000, 47000] = (⟨some 0, true⟩, [false, false]) :=
  queryInFlight_ticks_noop ⟨some 0, true⟩ 0 [30000, 47000] rfl rfl
    (by intro n hn; fin_cases hn <;> decide)

/-- C3: in every execution of the idle-loop query in which the content
provider returns a non-empty nearby-places text (the success path), the
guard flag is never cleared before the speak call completes — no
`clearFlag` occurs in the trace prefix preceding `speakReturn` — and the
flag is cleared in both the resolve and the reject outcome of the speak. -/
theorem successPath_clearsFlag_only_after_speak (speakOk : Bool) (s : String)
    (hs : s ≠ "") :
    Act.clearFlag ∉
      (nearbyQueryActs true true (some s) speakOk).takeWhile
        (fun a => a != Act.speakReturn speakOk)
    ∧ Act.speakReturn speakOk ∈ nearbyQueryActs true true (some s) speakOk
    ∧ Act.clearFlag ∈ nearbyQueryActs true true (some s) speakOk := by
  have h : strTruthy (some s) = true := by simp [strTruthy, hs]
  cases speakOk <;> simp only [nearbyQueryActs, h, if_true] <;> decide

/-- Witness for C3 at a concrete non-empty response and a rejecting speak. -/
theorem successPath_clearsFlag_only_after_speak_witness :
    Act.clearFlag ∉
      (nearbyQueryActs true true (some "x") false).takeWhile
        (fun a => a != Act.speakReturn false)
    ∧ Act.speakReturn false ∈ nearbyQueryActs true true (some "x") false
    ∧ Act.clearFlag ∈ nearbyQueryActs true true (some "x") false :=
  successPath_clearsFlag_only_after_speak false "x" (by decide)

/-- C4 counterexample: in the failure outcome of the orchestrator's speak
calls (welcome message, city description, analysis result), the guard flag
is NOT cleared — the `.catch` handlers at index.ts lines 493-495, 512-514
and 431-433 only log a warning, so no `clearFlag` effect occurs in the
rejected-speak traces.  This refutes the claim that the flag is cleared in
both the success and the failure outcome. -/
theorem orchestratorSpeak_noClear_onFailure_counterexample :
    Act.clearFlag ∉ welcomeSpeakActs false ∧
    Act.clearFlag ∉ cityDescriptionSpeakActs false ∧
    Act.clearFlag ∉ seeniqSpeakActs false := by
  decide

/-- C4 amended: for every speak operation issued by the Session
Orchestrator (welcome message, city description, analysis result), the
audio-start timestamp is recorded before the speak call is issued (the
trace begins `audioStartMark, speakCall`), and the idle guard flag is
cleared exactly when the speak call resolves successfully — never before
the call settles, and not at all when it rejects. -/
theorem orchestratorSpeak_marksStart_clearsFlag_onSuccess (ok : Bool) :
    ((welcomeSpeakActs ok).take 2 = [Act.audioStartMark, Act.speakCall] ∧
      Act.clearFlag ∉
        (welcomeSpeakActs ok).takeWhile (fun a => a != Act.speakReturn ok) ∧
      (Act.clearFlag ∈ welcomeSpeakActs ok ↔ ok = true)) ∧
    ((cityDescriptionSpeakActs ok).take 2 =
        [Act.audioStartMark, Act.speakCall] ∧
      Act.clearFlag ∉
        (cityDescriptionSpeakActs ok).takeWhile
          (fun a => a != Act.speakReturn ok) ∧
      (Act.clearFlag ∈ cityDescriptionSpeakActs ok ↔ ok = true)) ∧
    ((seeniqSpeakActs ok).take 2 = [Act.audioStartMark, Act.speakCall] ∧
      Act.clearFlag ∉
        (seeniqSpeakActs ok).takeWhile (fun a => a != Act.speakReturn ok) ∧
      (Act.clearFlag ∈ seeniqSpeakActs ok ↔ ok = true)) := by
  cases ok <;> decide

/-- C5 counterexample: `addLocationToExif` applied to PNG-signature bytes
returns `none` — a failure — rather than the input bytes unchanged as a
successful no-op: the function builds a `data:image/jpeg` URL regardless
of the actual format, and `piexif.insert` then throws on the non-JPEG
bytes, which the outer catch turns into a `null` return
(photo.ts lines 292 and 309-312). -/
theorem addLocationToExif_png_fails_counterexample :
    addLocationToExif pngBytes exLocation = none := by
  decide

/-- C5 amended: for every input image whose bytes do not start with the
JPEG start-of-image marker and every location, `addLocationToExif`
returns `none` (a failure), not the bytes unchanged; the unchanged-input
no-op behaviour for non-JPEG formats exists only in the button-handler
path `addGpsExifIfAvailable`, which tests the mime type and returns the
input base64 string unchanged when it is not JPEG-family. -/
theorem nonJpeg_annotation_behavior :
    (∀ (bytes : List Nat) (location : LocationUpdate),
      jpegSOI bytes = false → addLocationToExif bytes location = none)
    ∧ (∀ (b64 : String) (mime : Option String) (hasApi fetchThrows : Bool)
        (fetched : Option RawGpsLocation) (decoded : List Nat),
      isJpegMime mime = false →
        addGpsExifIfAvailable b64 mime hasApi fetchThrows fetched decoded =
          GpsEmbedResult.unchanged) := by
  constructor
  · intro bytes location hbytes
    unfold addLocationToExif
    have hins : ∀ e, piexifInsert e bytes = none := by
      intro e
      unfold piexifInsert
      split
      · rfl
      · rw [hbytes]
        rfl
    simp only [hins]
  · intro b64 mime hasApi fetchThrows fetched decoded hmime
    unfold addGpsExifIfAvailable
    rw [hmime]
    by_cases hb : b64 = "" <;> simp [hb]

/-- Witness for the amended C5 at concrete non-JPEG inputs. -/
theorem nonJpeg_annotation_behavior_witness :
    addLocationToExif [0] exLocation = none ∧
    addGpsExifIfAvailable "abc" (some "image/png") true false none [0] =
      GpsEmbedResult.unchanged :=
  ⟨nonJpeg_annotation_behavior.1 [0] exLocation (by decide),
   nonJpeg_annotation_behavior.2 "abc" (some "image/png") true false none [0]
     (by decide)⟩

/-- C6: after a successful live fetch at time `t₀` populated the cache, a
`getLocation` call with `useCache = true` within 30 seconds returns the
identical snapshot without a second live request, and a call made more
than 30 seconds after the cached fetch performs a fresh live fetch
instead of returning the cached value. -/
theorem locationCache_ttl (cache₀ : Option CachedLocation) (t₀ t₁ t₂ : Int)
    (raw : RawLocation) (l : LocationUpdate)
    (fetch₂ fetch₃ : Option RawLocation)
    (hmiss : (getCachedLocation cache₀ t₀).1 = none)
    (hvalid : buildLocation raw = some l)
    (h₁ : t₁ - t₀ ≤ CACHE_TTL_MS)
    (h₂ : CACHE_TTL_MS < t₂ - t₀) :
    getLocation cache₀ t₀ true (some raw) = (some l, some ⟨l, t₀⟩, true) ∧
    getLocation (some ⟨l, t₀⟩) t₁ true fetch₂ =
      (some l, some ⟨l, t₀⟩, false) ∧
    (getLocation (some ⟨l, t₀⟩) t₂ true fetch₃).2.2 = true := by
  refine ⟨?_, ?_, ?_⟩
  · rcases hg : getCachedLocation cache₀ t₀ with ⟨r, c⟩
    rw [hg] at hmiss
    simp only at hmiss
    subst hmiss
    simp [getLocation, hg, hvalid]
  · have hfresh : ¬ CACHE_TTL_MS < t₁ - t₀ := not_lt.mpr h₁
    simp [getLocation, getCachedLocation, hfresh]
  · have hexp : CACHE_TTL_MS < t₂ - t₀ := h₂
    cases fetch₃ with
    | none => simp [getLocation, getCachedLocation, hexp]
    | some raw₃ =>
      cases hb : buildLocation raw₃ with
      | none => simp [getLocation, getCachedLocation, hexp, hb]
      | some l₃ => simp [getLocation, getCachedLocation, hexp, hb]

/-- Witness for C6 at concrete times 0, 1000 and 40000. -/
theorem locationCache_ttl_witness :
    getLocation none 0 true (some rawExample) =
      (some locExample, some ⟨locExample, 0⟩, true) ∧
    getLocation (some ⟨locExample, 0⟩) 1000 true none =
      (some locExample, some ⟨locExample, 0⟩, false) ∧
    (getLocation (some ⟨locExample, 0⟩) 40000 true none).2.2 = true :=
  locationCache_ttl none 0 1000 40000 rawExample locExample none none
    (by decide) (by decide) (by decide) (by decide)

theorem mapGet_mapDelete_self {α : Type} (m : List (String × α)) (k : String) :
    mapGet (mapDelete m k) k = none := by
  induction m with
  | nil => rfl
  | cons p rest ih =>
    obtain ⟨k', v⟩ := p
    by_cases h : k' = k
    · simpa [mapDelete, List.filter_cons, h] using ih
    · simpa [mapDelete, List.filter_cons, mapGet, h] using ih

theorem mapGet_mapDelete_ne {α : Type} (m : List (String × α)) (k k' : String)
    (h : k' ≠ k) : mapGet (mapDelete m k) k' = mapGet m k' := by
  induction m with
  | nil => rfl
  | cons p rest ih =>
    obtain ⟨k₀, v⟩ := p
    by_cases h₀ : k₀ = k
    · subst h₀
      have hne : ¬ k₀ = k' := fun e => h e.symm
      simpa [mapDelete, List.filter_cons, mapGet, hne] using ih
    · by_cases h₁ : k₀ = k'
      · subst h₁
        simp [mapDelete, List.filter_cons, mapGet, h₀]
      · simpa [mapDelete, List.filter_cons, mapGet, h₀, h₁] using ih

theorem mapGet_mapSet_self {α : Type} (m : List (String × α)) (k : String)
    (v : α) : mapGet (mapSet m k v) k = some v := by
  simp [mapSet, mapGet]

theorem mapGet_mapSet_ne {α : Type} (m : List (String × α)) (k k' : String)
    (v : α) (h : k' ≠ k) : mapGet (mapSet m k v) k' = mapGet m k' := by
  have : ¬ k = k' := fun e => h e.symm
  simp only [mapSet, mapGet, this, if_false, if_neg this]
  exact mapGet_mapDelete_ne m k k' h

theorem mapDelete_of_mapGet_none {α : Type} (m : List (String × α))
    (k : String) (h : mapGet m k = none) : mapDelete m k = m := by
  induction m with
  | nil => rfl
  | cons p rest ih =>
    obtain ⟨k', v⟩ := p
    by_cases hk : k' = k
    · rw [mapGet, if_pos hk] at h
      cases h
    · rw [mapGet, if_neg hk] at h
      simp [mapDelete, List.filter_cons, hk, ih h, mapDelete] at ih ⊢
      exact ih h

/-- C7: for every photos map, request id and requester, the photo-fetch
endpoints `/api/photo/:requestId` and `/api/photo-base64/:requestId`
return 400 when the userId parameter is missing or empty, 404 when no
photo is stored under the request id, 403 when the stored photo's owner
differs from the requesting userId, and the stored bytes (respectively
the base64 JSON envelope) when the owner matches. -/
theorem photoEndpoints_ownership (m : List (String × StoredPhoto))
    (requestId : String) (uid : String) (photo : StoredPhoto) :
    (apiPhoto m requestId none = RouteResponse.badRequest "userId is required" ∧
      apiPhotoBase64 m requestId none =
        RouteResponse.badRequest "userId is required" ∧
      apiPhoto m requestId (some "") =
        RouteResponse.badRequest "userId is required" ∧
      apiPhotoBase64 m requestId (some "") =
        RouteResponse.badRequest "userId is required")
    ∧ (uid ≠ "" → mapGet m requestId = none →
        apiPhoto m requestId (some uid) =
          RouteResponse.notFound "Photo not found" ∧
        apiPhotoBase64 m requestId (some uid) =
          RouteResponse.notFound "Photo not found")
    ∧ (uid ≠ "" → mapGet m requestId = some photo → photo.userId ≠ uid →
        apiPhoto m requestId (some uid) =
          RouteResponse.forbidden "Access denied: photo belongs to different user" ∧
        apiPhotoBase64 m requestId (some uid) =
          RouteResponse.forbidden "Access denied: photo belongs to different user")
    ∧ (uid ≠ "" → mapGet m requestId = some photo → photo.userId = uid →
        apiPhoto m requestId (some uid) =
          RouteResponse.okBytes photo.mimeType photo.buffer ∧
        apiPhotoBase64 m requestId (some uid) =
          RouteResponse.okJson
            ⟨photo.requestId, photo.timestamp, photo.mimeType, photo.filename,
              photo.size, photo.userId, photo.buffer⟩) := by
  refine ⟨⟨rfl, rfl, ?_, ?_⟩, ?_, ?_, ?_⟩
  · simp [apiPhoto]
  · simp [apiPhotoBase64]
  · intro hu hm
    constructor <;> simp [apiPhoto, apiPhotoBase64, hu, hm]
  · intro hu hm hne
    constructor <;> simp [apiPhoto, apiPhotoBase64, hu, hm, hne]
  · intro hu hm heq
    constructor <;> simp [apiPhoto, apiPhotoBase64, hu, hm, heq]

/-- Witness for C7: concrete accesses against a map holding one photo
owned by user `A` produce 403 for user `B`, the bytes for user `A`,
404 for an unknown request id, and 400 for a missing userId. -/
theorem photoEndpoints_ownership_witness :
    apiPhoto photosMapExample "r1" (some "B") =
      RouteResponse.forbidden "Access denied: photo belongs to different user" ∧
    apiPhoto photosMapExample "r1" (some "A") =
      RouteResponse.okBytes "image/jpeg" [1, 2, 3] ∧
    apiPhoto photosMapExample "r2" (some "A") =
      RouteResponse.notFound "Photo not found" ∧
    apiPhoto photosMapExample "r1" none =
      RouteResponse.badRequest "userId is required" :=
  ⟨((photoEndpoints_ownership photosMapExample "r1" "B" photoExample).2.2.1
      (by decide) (by decide) (by decide)).1,
   ((photoEndpoints_ownership photosMapExample "r1" "A" photoExample).2.2.2
      (by decide) (by decide) (by decide)).1,
   ((photoEndpoints_ownership photosMapExample "r2" "A" photoExample).2.1
      (by decide) (by decide)).1,
   (photoEndpoints_ownership photosMapExample "r1" "A" photoExample).1.1⟩

/-- C9: session stop for a user modifies exactly the per-user idle timer
(cancelled and removed), the audio-start record, the idle-query guard
flag entry and the session handle, each deleted for that user only; the
mentioned-places map, the previous-responses map, the photos map and the
timer-id counter are left unchanged. -/
theorem onStop_frame (st : AppState) (u : String) :
    (onStop st u).mentionedPlaces = st.mentionedPlaces ∧
    (onStop st u).previousResponses = st.previousResponses ∧
    (onStop st u).photosMap = st.photosMap ∧
    (onStop st u).nextTimerId = st.nextTimerId ∧
    (onStop st u).lastAudioStartTime = mapDelete st.lastAudioStartTime u ∧
    (onStop st u).hasQueriedNearbyPlaces =
      mapDelete st.hasQueriedNearbyPlaces u ∧
    (onStop st u).activeSessions = mapDelete st.activeSessions u ∧
    (onStop st u).idleCheckIntervals = mapDelete st.idleCheckIntervals u ∧
    (onStop st u).activeTimers =
      (match mapGet st.idleCheckIntervals u with
        | some interval => st.activeTimers.filter (fun p => p.1 != interval)
        | none => st.activeTimers) := by
  cases hmg : mapGet st.idleCheckIntervals u with
  | some interval =>
    simp [onStop, stopIdleCheck, hmg]
  | none =>
    simp [onStop, stopIdleCheck, hmg, mapDelete_of_mapGet_none _ _ hmg]

theorem nestData_obj (n : Nat) (fl : List (String × Json)) :
    jtypeofObject (nestData n (Json.jobj fl)) = true ∧
    jfalsy (nestData n (Json.jobj fl)) = false := by
  cases n with
  | zero => exact ⟨rfl, rfl⟩
  | succ m => exact ⟨rfl, rfl⟩

theorem firstNonBlank_dataOnly (X : Json) :
    firstNonBlank (Json.jobj [("data", X)]) candidateKeys = none := by
  simp [firstNonBlank, candidateKeys, jget, jgetFields]

theorem jfalsy_jobj (fl : List (String × Json)) :
    jfalsy (Json.jobj fl) = false :=
  rfl

theorem extract_unfold_data (X : Json) (hobj : jtypeofObject X = true)
    (hfal : jfalsy X = false) :
    extractExplanationText (Json.jobj [("data", X)]) =
      extractExplanationText X := by
  conv_lhs => rw [extractExplanationText.eq_def]
  simp [jfalsy_jobj, firstNonBlank_dataOnly, jgetFields, hobj, hfal]

theorem extract_nestData (n : Nat) (fl : List (String × Json)) :
    extractExplanationText (nestData n (Json.jobj fl)) =
      extractExplanationText (Json.jobj fl) := by
  induction n with
  | zero => rfl
  | succ m ih =>
    rw [nestData,
      extract_unfold_data _ (nestData_obj m fl).1 (nestData_obj m fl).2]
    exact ih

theorem extract_explanation_base (s : String) (hs : jsTrim s ≠ "") :
    extractExplanationText (Json.jobj [("explanation", Json.jstr s)]) =
      some (jsTrim s) := by
  simp [extractExplanationText, jfalsy, firstNonBlank, candidateKeys, jget,
    jgetFields, hs]

/-- C8 counterexample: on a response whose explanation sits two `data`
levels deep, the code's extraction succeeds — it recurses through the
chained `data` objects — whereas an extraction that recursed only once
into the nested `data` object (the claim's wording, modelled by
`extractOnceSpec`) finds nothing.  The claim's depth-one description is
therefore refuted at this input. -/
theorem extractExplanation_deepNesting_counterexample :
    extractExplanationText deepPayload = some "Deep explanation" ∧
    extractOnceSpec deepPayload = none := by
  constructor
  · have h1 := extract_nestData 2 [("explanation", Json.jstr "Deep explanation")]
    have h2 := extract_explanation_base "Deep explanation" (by decide)
    have h3 : jsTrim "Deep explanation" = "Deep explanation" := by decide
    unfold deepPayload
    rw [h1, h2, h3]
  · decide

/-- C8 amended: string payloads are trimmed and returned directly (absent
when blank); object payloads are probed over the fixed ordered candidate
key list, returning the first non-blank string value trimmed; and when no
candidate matches, the extraction recurses repeatedly — to arbitrary
depth — through object-valued `data` fields, not just once. -/
theorem extractExplanation_probeAndRecurse :
    (∀ s : String, extractExplanationText (Json.jstr s) =
        if jsTrim s = "" then none else some (jsTrim s))
    ∧ (∀ fields : List (String × Json), jgetFields fields "data" = none →
        extractExplanationText (Json.jobj fields) =
          firstNonBlank (Json.jobj fields) candidateKeys)
    ∧ (∀ (n : Nat) (s : String), jsTrim s ≠ "" →
        extractExplanationText
            (nestData n (Json.jobj [("explanation", Json.jstr s)])) =
          some (jsTrim s)) := by
  refine ⟨?_, ?_, ?_⟩
  · intro s
    by_cases hs : s = ""
    · subst hs
      have hts : jsTrim "" = "" := by decide
      simp [extractExplanationText, jfalsy, hts]
    · simp [extractExplanationText, jfalsy, hs]
  · intro fields hdata
    cases hfb : firstNonBlank (Json.jobj fields) candidateKeys with
    | some t => simp [extractExplanationText, jfalsy, hfb]
    | none =>
      simp [extractExplanationText, jfalsy, hfb]
      split
      · next d heq =>
          rw [hdata] at heq
          exact Option.noConfusion heq
      · rfl
  · intro n s hs
    rw [extract_nestData n [("explanation", Json.jstr s)]]
    exact extract_explanation_base s hs

/-- Witness for the amended C8 at depth 3 and a concrete explanation. -/
theorem extractExplanation_probeAndRecurse_witness :
    extractExplanationText
        (nestData 3 (Json.jobj [("explanation", Json.jstr "Old Town Square")])) =
      some (jsTrim "Old Town Square") :=
  extractExplanation_probeAndRecurse.2.2 3 "Old Town Square" (by decide)

theorem nodup_all_eq_length_le {α : Type} (l : List α) (a : α)
    (hnd : l.Nodup) (hall : ∀ x ∈ l, x = a) : l.length ≤ 1 := by
  match l, hnd, hall with
  | [], _, _ => simp
  | [x], _, _ => simp
  | x :: y :: t, hnd, hall =>
    exfalso
    have hx : x = a := hall x (by simp)
    have hy : y = a := hall y (by simp)
    have hxy : x = y := hx.trans hy.symm
    have h := List.nodup_cons.mp hnd
    exact h.1 (by rw [hxy]; simp)

theorem timerInv_initial : TimerInv initialAppState := by
  refine ⟨?_, ?_, ?_, ?_, ?_⟩ <;> simp [initialAppState, mapGet]

theorem stopIdleCheck_mapGet_self (st : AppState) (u : String) :
    mapGet (stopIdleCheck st u).idleCheckIntervals u = none := by
  unfold stopIdleCheck
  cases hmg : mapGet st.idleCheckIntervals u with
  | some i => simpa using mapGet_mapDelete_self st.idleCheckIntervals u
  | none => simpa using hmg

theorem timerInv_stopIdleCheck (st : AppState) (u : String)
    (h : TimerInv st) : TimerInv (stopIdleCheck st u) := by
  obtain ⟨h1, h2, h3, h4, h5⟩ := h
  unfold stopIdleCheck
  cases hmg : mapGet st.idleCheckIntervals u with
  | none => exact ⟨h1, h2, h3, h4, h5⟩
  | some i =>
    refine ⟨?_, ?_, ?_, ?_, ?_⟩
    · intro j w hmem
      have hmem' : (j, w) ∈ st.activeTimers := List.mem_of_mem_filter hmem
      have hji : j ≠ i := by simpa using List.of_mem_filter hmem
      have hw := h1 j w hmem'
      have hwu : w ≠ u := by
        intro e
        subst e
        rw [hw] at hmg
        exact hji (Option.some.inj hmg)
      show mapGet (mapDelete st.idleCheckIntervals u) w = some j
      rw [mapGet_mapDelete_ne _ _ _ hwu]
      exact hw
    · intro u₁ u₂ j hj1 hj2
      dsimp only at hj1 hj2
      have e1 : u₁ ≠ u := by
        intro e
        rw [e, mapGet_mapDelete_self] at hj1
        exact Option.noConfusion hj1
      have e2 : u₂ ≠ u := by
        intro e
        rw [e, mapGet_mapDelete_self] at hj2
        exact Option.noConfusion hj2
      rw [mapGet_mapDelete_ne _ _ _ e1] at hj1
      rw [mapGet_mapDelete_ne _ _ _ e2] at hj2
      exact h2 u₁ u₂ j hj1 hj2
    · intro j w hmem
      exact h3 j w (List.mem_of_mem_filter hmem)
    · intro w j hj
      dsimp only at hj
      have ew : w ≠ u := by
        intro e
        rw [e, mapGet_mapDelete_self] at hj
        exact Option.noConfusion hj
      rw [mapGet_mapDelete_ne _ _ _ ew] at hj
      exact h4 w j hj
    · exact h5.filter _

theorem timerInv_startIdleCheck (st : AppState) (u : String)
    (h : TimerInv st) : TimerInv (startIdleCheck st u) := by
  have hnou := stopIdleCheck_mapGet_self st u
  obtain ⟨h1, h2, h3, h4, h5⟩ := timerInv_stopIdleCheck st u h
  unfold startIdleCheck
  set st1 := stopIdleCheck st u with hst1
  refine ⟨?_, ?_, ?_, ?_, ?_⟩
  · intro j w hmem
    rcases List.mem_cons.mp hmem with he | ht
    · have e1 : j = st1.nextTimerId := congrArg Prod.fst he
      have e2 : w = u := congrArg Prod.snd he
      subst e1
      subst e2
      exact mapGet_mapSet_self st1.idleCheckIntervals w st1.nextTimerId
    · have hw := h1 j w ht
      have hwu : w ≠ u := by
        intro e
        subst e
        rw [hnou] at hw
        exact Option.noConfusion hw
      show mapGet (mapSet st1.idleCheckIntervals u st1.nextTimerId) w = some j
      rw [mapGet_mapSet_ne _ _ _ _ hwu]
      exact hw
  · intro u₁ u₂ j hj1 hj2
    by_cases e1 : u₁ = u <;> by_cases e2 : u₂ = u
    · rw [e1, e2]
    · subst e1
      rw [show (mapGet (mapSet st1.idleCheckIntervals u₁ st1.nextTimerId) u₁)
          = some st1.nextTimerId from mapGet_mapSet_self _ _ _] at hj1
      have hji : j = st1.nextTimerId := (Option.some.inj hj1).symm
      have hj2' : mapGet st1.idleCheckIntervals u₂ = some j := by
        have := hj2
        rwa [mapGet_mapSet_ne _ _ _ _ e2] at this
      have := h4 u₂ j hj2'
      omega
    · subst e2
      rw [show (mapGet (mapSet st1.idleCheckIntervals u₂ st1.nextTimerId) u₂)
          = some st1.nextTimerId from mapGet_mapSet_self _ _ _] at hj2
      have hji : j = st1.nextTimerId := (Option.some.inj hj2).symm
      have hj1' : mapGet st1.idleCheckIntervals u₁ = some j := by
        have := hj1
        rwa [mapGet_mapSet_ne _ _ _ _ e1] at this
      have := h4 u₁ j hj1'
      omega
    · have hj1' : mapGet st1.idleCheckIntervals u₁ = some j := by
        have := hj1
        rwa [mapGet_mapSet_ne _ _ _ _ e1] at this
      have hj2' : mapGet st1.idleCheckIntervals u₂ = some j := by
        have := hj2
        rwa [mapGet_mapSet_ne _ _ _ _ e2] at this
      exact h2 u₁ u₂ j hj1' hj2'
  · intro j w hmem
    show j < st1.nextTimerId + 1
    rcases List.mem_cons.mp hmem with he | ht
    · have e1 : j = st1.nextTimerId := congrArg Prod.fst he
      omega
    · have := h3 j w ht
      omega
  · intro w j hj
    show j < st1.nextTimerId + 1
    by_cases e : w = u
    · subst e
      rw [show (mapGet (mapSet st1.idleCheckIntervals w st1.nextTimerId) w)
          = some st1.nextTimerId from mapGet_mapSet_self _ _ _] at hj
      have hji : j = st1.nextTimerId := (Option.some.inj hj).symm
      omega
    · have hj' : mapGet st1.idleCheckIntervals w = some j := by
        have := hj
        rwa [mapGet_mapSet_ne _ _ _ _ e] at this
      have := h4 w j hj'
      omega
  · refine List.nodup_cons.mpr ⟨?_, h5⟩
    intro hmem
    have := h3 st1.nextTimerId u hmem
    omega

theorem timerInv_foldl (calls : List IdleCheckCall) (st : AppState)
    (h : TimerInv st) : TimerInv (List.foldl applyCall st calls) := by
  induction calls generalizing st with
  | nil => exact h
  | cons c rest ih =>
    simp only [List.foldl_cons]
    apply ih
    cases c with
    | start v => exact timerInv_startIdleCheck st v h
    | stop v => exact timerInv_stopIdleCheck st v h

theorem timerInv_runCalls (calls : List IdleCheckCall) :
    TimerInv (runCalls calls) :=
  timerInv_foldl calls initialAppState timerInv_initial

/-- C10: for every user and every sequence of `startIdleCheck` and
`stopIdleCheck` calls from process start, at most one idle-check interval
timer is live for that user at any time: `startIdleCheck` always cancels
and removes any existing interval for the user before creating a new
one. -/
theorem atMostOne_idleInterval_perUser (calls : List IdleCheckCall)
    (u : String) :
    (timersFor (runCalls calls) u).length ≤ 1 := by
  obtain ⟨h1, h2, h3, h4, h5⟩ := timerInv_runCalls calls
  cases hmg : mapGet (runCalls calls).idleCheckIntervals u with
  | none =>
    have hempty : timersFor (runCalls calls) u = [] := by
      rw [List.eq_nil_iff_forall_not_mem]
      intro x hx
      obtain ⟨j, w⟩ := x
      have hmem := List.mem_of_mem_filter hx
      have hwu : w = u := by simpa using List.of_mem_filter hx
      subst hwu
      have hj := h1 j w hmem
      rw [hmg] at hj
      exact Option.noConfusion hj
    simp [hempty]
  | some i₀ =>
    have hall : ∀ x ∈ timersFor (runCalls calls) u, x = (i₀, u) := by
      intro x hx
      obtain ⟨j, w⟩ := x
      have hmem := List.mem_of_mem_filter hx
      have hwu : w = u := by simpa using List.of_mem_filter hx
      subst hwu
      have hj := h1 j w hmem
      rw [hmg] at hj
      rw [Option.some.inj hj]
    exact nodup_all_eq_length_le _ _ (h5.filter _) hall

end Seeniq
